/-
Verification of the chemosynthetic-ecosystem simulator (chemora_ocean.py).

Shallow embedding conventions:
* Python `dict` (the environment's chemical mapping and the population
  history) becomes an association list; lookup and update act on the
  first matching key, matching Python's unique-key dicts.
* Python ints become `Int`; Python floats (rates, energy, quantities)
  become `Rat`, with `int(x)` modelled as truncation toward zero
  (`pyInt`), and `//` on integers as Euclidean division (floor for
  positive divisors), matching Python semantics.
* `random.randint` / `random.random` / `random.choice` /
  `random.uniform` draws become explicit oracle parameters.
* Fallible dict indexing (`KeyError`) makes `consume_chemicals` and the
  simulation loop return `Option`.
* The symbiosis partner reference becomes an index into the species
  list, so in-place mutation of the partner is visible through the list.
-/
import Mathlib

/-- Python `int(q)` on a nonnegative-or-negative rational: truncation toward
zero, as Python's `int()` applied to a float. -/
def pyInt (q : ℚ) : ℤ := q.num.tdiv (q.den : ℤ)

/-- The environment's chemical mapping: chemical kind to quantity,
as an association list standing for the Python dict. -/
abbrev EnvMap : Type := List (String × ℚ)

/-- First-match lookup in an association list (Python `d[k]` read). -/
def lookupA {α : Type} : List (String × α) → String → Option α
  | [], _ => none
  | p :: rest, k => if p.1 = k then some p.2 else lookupA rest k

/-- First-match update in an association list (Python `d[k] = v` on an
existing key). -/
def updateA : List (String × ℚ) → String → ℚ → List (String × ℚ)
  | [], _, _ => []
  | p :: rest, k, v => if p.1 = k then (p.1, v) :: rest else p :: updateA rest k v

/-- ENERGY_YIELD = {"hydrogen": 10, "sulfur": 8, "methane": 5}; indexing a
missing key raises KeyError, hence `Option`. -/
def ENERGY_YIELD (chemical : String) : Option ℚ :=
  if chemical = "hydrogen" then some 10
  else if chemical = "sulfur" then some 8
  else if chemical = "methane" then some 5
  else none

/-- INITIAL_CHEMICALS = {"hydrogen": 1000, "sulfur": 800, "methane": 500}. -/
def INITIAL_CHEMICALS : EnvMap :=
  [("hydrogen", 1000), ("sulfur", 800), ("methane", 500)]

/-- The `Species` class state.  `symbiosis` is an optional index into the
simulation's species list (the Python object reference). -/
structure Species where
  name : String
  energy_efficiency : ℚ
  reproduction_rate : ℚ
  predation_rate : ℚ
  chemical_affinity : String
  population : ℤ
  energy : ℚ
  symbiosis : Option Nat
deriving DecidableEq

/-- `Species.consume_chemicals(environment)`: reads the quantity for the
species' affinity (KeyError if absent → `none`); if it is positive,
gains `min(avail, population) * ENERGY_YIELD[chemical] * energy_efficiency`
energy (KeyError if the yield table lacks the affinity → `none`) and
removes `min(avail, population)` from the environment. -/
def consume_chemicals (s : Species) (environment : EnvMap) :
    Option (Species × EnvMap) :=
  match lookupA environment s.chemical_affinity with
  | none => none
  | some avail =>
    if 0 < avail then
      match ENERGY_YIELD s.chemical_affinity with
      | none => none
      | some y =>
        let consumed := min avail (s.population : ℚ)
        some ({ s with energy := s.energy + consumed * y * s.energy_efficiency },
              updateA environment s.chemical_affinity (avail - consumed))
    else
      some (s, environment)

/-- `Species.reproduce()`: if energy ≥ population * 2, add
`int(population * reproduction_rate)` offspring and spend the energy. -/
def reproduce (s : Species) : Species :=
  let energy_needed : ℚ := (s.population : ℚ) * 2
  if energy_needed ≤ s.energy then
    let offspring := pyInt ((s.population : ℚ) * s.reproduction_rate)
    { s with population := s.population + offspring,
             energy := s.energy - energy_needed }
  else s

/-- `Species.predation(prey)`: if the prey population is positive, the prey
loses `int(prey.population * predation_rate)` and the predator gains half
that (integer floor division `//`, which is `Int.ediv` here). -/
def predation (s prey : Species) : Species × Species :=
  if 0 < prey.population then
    let prey_loss := pyInt ((prey.population : ℚ) * s.predation_rate)
    ({ s with population := s.population + prey_loss / 2 },
     { prey with population := prey.population - prey_loss })
  else (s, prey)

/-- `Species.symbiotic_interaction()`: if a partner is set, gain
`int(partner.population * 0.1)` energy, reading the partner's current state
through the species list. -/
def symbiotic_interaction (s : Species) (species_list : List Species) : Species :=
  match s.symbiosis with
  | none => s
  | some i =>
    match species_list[i]? with
    | none => s
    | some partner =>
      { s with energy := s.energy + (pyInt ((partner.population : ℚ) * (1 / 10)) : ℚ) }

/-- The trait picked by `random.choice` in `Species.evolve`. -/
inductive Trait where
  | energy_efficiency : Trait
  | reproduction_rate : Trait
  | predation_rate : Trait
deriving DecidableEq

/-- `Species.evolve()`: with the drawn `mutation_chance < 0.1`, multiply the
drawn trait by the drawn `mutation_factor`. -/
def evolve (s : Species) (mutation_chance : ℚ) (trait : Trait)
    (mutation_factor : ℚ) : Species :=
  if mutation_chance < 1 / 10 then
    match trait with
    | Trait.energy_efficiency =>
      { s with energy_efficiency := s.energy_efficiency * mutation_factor }
    | Trait.reproduction_rate =>
      { s with reproduction_rate := s.reproduction_rate * mutation_factor }
    | Trait.predation_rate =>
      { s with predation_rate := s.predation_rate * mutation_factor }
  else s

/-- One per-key step of `Environment.replenish_chemicals`: key `i` of the
mapping receives the `i`-th `random.randint(10, 50)` draw. -/
def replenishAux (amts : Nat → ℤ) : Nat → List (String × ℚ) → List (String × ℚ)
  | _, [] => []
  | i, p :: rest => (p.1, p.2 + (amts i : ℚ)) :: replenishAux amts (i + 1) rest

/-- `Environment.replenish_chemicals()`: adds an independent
`random.randint(10, 50)` draw to every chemical kind, in key order. -/
def replenish_chemicals (chemicals : EnvMap) (amts : Nat → ℤ) : EnvMap :=
  replenishAux amts 0 chemicals

/-- The population-history dict: species name to recorded populations. -/
abbrev PopHist : Type := List (String × List ℤ)

/-- `population_history[nm].append(v)` (the key exists whenever it is used
by the loop, since the dict is seeded with every species name). -/
def appendPop (hist : PopHist) (nm : String) (v : ℤ) : PopHist :=
  hist.map (fun p => if p.1 = nm then (p.1, p.2 ++ [v]) else p)

/-- `{species.name: [] for species in species_list}`: one entry per distinct
name, at its first occurrence. -/
def initHistory (species_list : List Species) : PopHist :=
  species_list.foldl
    (fun h s => if h.any (fun p => p.1 = s.name) then h else h ++ [(s.name, [])])
    []

/-- The consume → symbiosis → reproduce → record pass of one generation,
processing species at indices `j, j+1, ...` (`k` of them remain), with all
mutations written back to the species list as Python does in place. -/
def speciesPhaseAux : Nat → Nat → List Species → EnvMap → PopHist →
    Option (List Species × EnvMap × PopHist)
  | 0, _, sl, env, hist => some (sl, env, hist)
  | Nat.succ k, j, sl, env, hist =>
    match sl[j]? with
    | none => none
    | some s =>
      match consume_chemicals s env with
      | none => none
      | some (s1, env1) =>
        let sl1 := sl.set j s1
        let s2 := symbiotic_interaction s1 sl1
        let sl2 := sl1.set j s2
        let s3 := reproduce s2
        let sl3 := sl2.set j s3
        speciesPhaseAux k (j + 1) sl3 env1 (appendPop hist s3.name s3.population)

/-- The first per-species pass of a generation over the whole list. -/
def speciesPhase (sl : List Species) (env : EnvMap) (hist : PopHist) :
    Option (List Species × EnvMap × PopHist) :=
  speciesPhaseAux sl.length 0 sl env hist

/-- The predation pass: `cur` is `species_list[i]` (already updated as prey
of its left neighbour) and preys on the head of the remaining list. -/
def predAux (cur : Species) : List Species → List Species
  | [] => [cur]
  | b :: rest =>
    let pb := predation cur b
    pb.1 :: predAux pb.2 rest

/-- `for i in range(len(species_list) - 1): species_list[i].predation(species_list[i+1])`. -/
def predPhase : List Species → List Species
  | [] => []
  | s :: rest => predAux s rest

/-- The evolve pass: species `j` uses the `j`-th draw of this generation. -/
def evolvePhase (draws : Nat → ℚ × Trait × ℚ) : Nat → List Species → List Species
  | _, [] => []
  | j, s :: rest =>
    evolve s (draws j).1 (draws j).2.1 (draws j).2.2 :: evolvePhase draws (j + 1) rest

/-- `sum(environment.chemicals.values())`. -/
def sumChemicals (env : EnvMap) : ℚ := (env.map Prod.snd).sum

/-- The mutable state threaded through `simulate_ecosystem`'s loop. -/
structure SimState where
  species : List Species
  env : EnvMap
  pop_hist : PopHist
  chem_hist : List ℚ

/-- One generation of `simulate_ecosystem`: record the chemical total,
run the per-species pass, the predation pass, the evolve pass, then
replenish.  `eDraws j` are the evolve draws for species `j`; `rAmts i` the
replenishment draw for key `i`. -/
def runGeneration (eDraws : Nat → ℚ × Trait × ℚ) (rAmts : Nat → ℤ)
    (st : SimState) : Option SimState :=
  let ch := st.chem_hist ++ [sumChemicals st.env]
  match speciesPhase st.species st.env st.pop_hist with
  | none => none
  | some (sl1, env1, hist1) =>
    let sl2 := predPhase sl1
    let sl3 := evolvePhase eDraws 0 sl2
    let env2 := replenish_chemicals env1 rAmts
    some ⟨sl3, env2, hist1, ch⟩

/-- `for gen in range(generations)`: runs the remaining `g` generations,
`gen` being the index of the next one (draw oracles are per generation). -/
def simAux (eDraws : Nat → Nat → ℚ × Trait × ℚ) (rAmts : Nat → Nat → ℤ) :
    Nat → Nat → SimState → Option SimState
  | _, 0, st => some st
  | gen, Nat.succ g, st =>
    match runGeneration (eDraws gen) (rAmts gen) st with
    | none => none
    | some st' => simAux eDraws rAmts (gen + 1) g st'

/-- `simulate_ecosystem(species_list, environment, generations)`, returning
the population and chemical histories (or `none` on a KeyError). -/
def simulate_ecosystem (species_list : List Species) (environment : EnvMap)
    (generations : Nat) (eDraws : Nat → Nat → ℚ × Trait × ℚ)
    (rAmts : Nat → Nat → ℤ) : Option (PopHist × List ℚ) :=
  match simAux eDraws rAmts 0 generations
      ⟨species_list, environment, initHistory species_list, []⟩ with
  | none => none
  | some st => some (st.pop_hist, st.chem_hist)

/-! ### Concrete inputs used to exercise the theorems -/

/-- The `species_a` parameters of the repository's example setup, with the
random initial population fixed at 100 (the spec's end-to-end scenario). -/
def speciesH : Species :=
  { name := "Chemosynth A", energy_efficiency := 4/5, reproduction_rate := 1/20,
    predation_rate := 1/50, chemical_affinity := "hydrogen",
    population := 100, energy := 0, symbiosis := none }

/-- The reproduction scenario: population 100 with energy exactly 200. -/
def speciesR : Species := { speciesH with energy := 200 }

/-- The predation scenario's prey: population 200. -/
def preyS : Species := { speciesH with population := 200 }

/-- Two species sharing one name (the duplicate-name scenario); the second
has a different population so the shared history entry is visibly joint. -/
def dupA : Species := { speciesH with predation_rate := 0 }

/-- Second species with the same name as `dupA`. -/
def dupB : Species := { dupA with population := 50 }

/-- Concrete evolve draws: mutation chance 1/2 (no mutation fires). -/
def cEDraw : Nat → Nat → ℚ × Trait × ℚ := fun _ _ => (1/2, Trait.energy_efficiency, 1)

/-- Concrete replenishment draws: always 10. -/
def cRAmt : Nat → Nat → ℤ := fun _ _ => 10

/-! ### Basic arithmetic facts about the Python `int()` and `//` models -/

theorem pyInt_eq_floor {q : ℚ} (h : 0 ≤ q) : pyInt q = ⌊q⌋ := by
  rw [pyInt, Int.tdiv_eq_ediv (Rat.num_nonneg.mpr h) (by positivity), Rat.floor_def]

theorem pyInt_nonneg {q : ℚ} (h : 0 ≤ q) : 0 ≤ pyInt q := by
  rw [pyInt_eq_floor h]
  exact Int.floor_nonneg.mpr h

theorem pyInt_cast_le {q : ℚ} (h : 0 ≤ q) : (pyInt q : ℚ) ≤ q := by
  rw [pyInt_eq_floor h]
  exact Int.floor_le q

/-! ### Association-list facts -/

theorem lookupA_updateA_self {env : EnvMap} {k : String} {q : ℚ} (v : ℚ)
    (h : lookupA env k = some q) : lookupA (updateA env k v) k = some v := by
  induction env with
  | nil => simp [lookupA] at h
  | cons p rest ih =>
    by_cases hp : p.1 = k
    · simp [lookupA, updateA, hp]
    · simp only [lookupA, updateA, if_neg hp] at h ⊢
      exact ih h

theorem updateA_map_fst (env : EnvMap) (k : String) (v : ℚ) :
    (updateA env k v).map Prod.fst = env.map Prod.fst := by
  induction env with
  | nil => rfl
  | cons p rest ih =>
    by_cases hp : p.1 = k
    · simp [updateA, hp]
    · simp [updateA, hp, ih]

theorem lookupA_isSome_of_mem_fst {env : EnvMap} {k : String}
    (h : k ∈ env.map Prod.fst) : ∃ q, lookupA env k = some q := by
  induction env with
  | nil => simp at h
  | cons p rest ih =>
    by_cases hp : p.1 = k
    · exact ⟨p.2, by simp [lookupA, hp]⟩
    · simp only [List.map_cons, List.mem_cons] at h
      rcases h with h | h
    
      · exact absurd h.symm hp
      · simpa [lookupA, hp] using ih h

theorem updateA_snd_nonneg {env : EnvMap} {k : String} {v : ℚ}
    (henv : ∀ p ∈ env, 0 ≤ p.2) (hv : 0 ≤ v) :
    ∀ p ∈ updateA env k v, 0 ≤ p.2 := by
  induction env with
  | nil => simp [updateA]
  | cons p rest ih =>
    intro p' hp'
    by_cases hp : p.1 = k
    · simp only [updateA, if_pos hp, List.mem_cons] at hp'
      rcases hp' with rfl | hp'
      · exact hv
      · exact henv p' (List.mem_cons_of_mem _ hp')
    · simp only [updateA, if_neg hp, List.mem_cons] at hp'
      rcases hp' with rfl | hp'
      · exact henv p' (List.mem_cons_self _ _)
      · exact ih (fun r hr => henv r (List.mem_cons_of_mem _ hr)) p' hp'

/-! ### Population-history facts -/

theorem appendPop_map_fst (hist : PopHist) (nm : String) (v : ℤ) :
    (appendPop hist nm v).map Prod.fst = hist.map Prod.fst := by
  induction hist with
  | nil => rfl
  | cons p rest ih =>
    by_cases hp : p.1 = nm
    · simp [appendPop, hp] at ih ⊢
      exact ih
    · simp [appendPop, hp] at ih ⊢
      exact ih

theorem lookupA_appendPop (hist : PopHist) (nm n : String) (v : ℤ) :
    lookupA (appendPop hist nm v) n =
      (lookupA hist n).map (fun l => if n = nm then l ++ [v] else l) := by
  induction hist with
  | nil => simp [appendPop, lookupA]
  | cons p rest ih =>
    by_cases hp : p.1 = n
    · by_cases hn : n = nm
      · simp [appendPop, lookupA, hp, hn]
      · have : ¬ p.1 = nm := by rw [hp]; exact hn
        simp [appendPop, lookupA, hp, hn, this]
    · by_cases hm : p.1 = nm
      · simp only [appendPop, List.map_cons, if_pos hm] at ih ⊢
        simpa [lookupA, hp] using ih
      · simp only [appendPop, List.map_cons, if_neg hm] at ih ⊢
        simpa [lookupA, hp] using ih

/-! ### Generic list facts used by the phase lemmas -/

theorem map_set_eq {α β : Type} (f : α → β) (l : List α) (j : Nat) (a : α)
    (h : ∀ b, l[j]? = some b → f a = f b) : (l.set j a).map f = l.map f := by
  induction l generalizing j with
  | nil => rfl
  | cons x xs ih =>
    cases j with
    | zero => simp only [List.set]; rw [List.map_cons, List.map_cons, h x (by simp)]
    | succ j' =>
      simp only [List.set, List.map_cons]
      rw [ih j' (fun b hb => h b (by simpa using hb))]

/-! ### Characterizations of consume_chemicals -/

theorem ENERGY_YIELD_pos {c : String} {y : ℚ} (h : ENERGY_YIELD c = some y) :
    0 < y := by
  unfold ENERGY_YIELD at h
  split_ifs at h <;> simp_all <;> linarith

theorem consume_chemicals_pos_eq {s : Species} {env : EnvMap} {avail y : ℚ}
    (henv : lookupA env s.chemical_affinity = some avail) (hpos : 0 < avail)
    (hy : ENERGY_YIELD s.chemical_affinity = some y) :
    consume_chemicals s env = some
      ({ s with energy := s.energy + min avail (s.population : ℚ) * y * s.energy_efficiency },
        updateA env s.chemical_affinity (avail - min avail (s.population : ℚ))) := by
  simp [consume_chemicals, henv, hpos, hy]

theorem consume_chemicals_nonpos_eq {s : Species} {env : EnvMap} {avail : ℚ}
    (henv : lookupA env s.chemical_affinity = some avail) (h : avail ≤ 0) :
    consume_chemicals s env = some (s, env) := by
  simp [consume_chemicals, henv, not_lt.mpr h]

theorem consume_chemicals_inv {s : Species} {env : EnvMap} {s' : Species}
    {env' : EnvMap} (h : consume_chemicals s env = some (s', env')) :
    (s' = s ∧ env' = env) ∨
    ∃ avail y, lookupA env s.chemical_affinity = some avail ∧ 0 < avail ∧
      ENERGY_YIELD s.chemical_affinity = some y ∧
      s' = { s with energy :=
              s.energy + min avail (s.population : ℚ) * y * s.energy_efficiency } ∧
      env' = updateA env s.chemical_affinity (avail - min avail (s.population : ℚ)) := by
  cases hl : lookupA env s.chemical_affinity with
  | none => simp [consume_chemicals, hl] at h
  | some avail =>
    by_cases hpos : 0 < avail
    · cases hy : ENERGY_YIELD s.chemical_affinity with
      | none => simp [consume_chemicals, hl, hpos, hy] at h
      | some y =>
        rw [consume_chemicals_pos_eq hl hpos hy] at h
        simp only [Option.some.injEq, Prod.mk.injEq] at h
        exact Or.inr ⟨avail, y, rfl, hpos, rfl, h.1.symm, h.2.symm⟩
    · rw [consume_chemicals_nonpos_eq hl (not_lt.mp hpos)] at h
      simp only [Option.some.injEq, Prod.mk.injEq] at h
      exact Or.inl ⟨h.1.symm, h.2.symm⟩

theorem consume_chemicals_env_nonneg {s : Species} {env : EnvMap} {s' : Species}
    {env' : EnvMap} (henv : ∀ p ∈ env, 0 ≤ p.2)
    (h : consume_chemicals s env = some (s', env')) :
    ∀ p ∈ env', 0 ≤ p.2 := by
  rcases consume_chemicals_inv h with ⟨-, rfl⟩ | ⟨avail, y, -, -, -, -, rfl⟩
  · exact henv
  · exact updateA_snd_nonneg henv (sub_nonneg.mpr (min_le_left _ _)) 

/-! ### Claims C1, C2, C3: the per-operation contracts -/

/-- Claim C1: for every species with population ≥ 0 and every environment
mapping holding a quantity `avail` for the species' chemical affinity: if
`avail ≤ 0`, consume_chemicals changes nothing; otherwise, with
`consumed = min avail population`, the energy grows by exactly
`consumed * yield * energy_efficiency`, the quantity for the affinity drops
by exactly `consumed` and stays ≥ 0, and the population is unchanged. -/
theorem claim_C1_consume_chemicals (s : Species) (env : EnvMap) (avail : ℚ)
    (hpop : 0 ≤ s.population)
    (henv : lookupA env s.chemical_affinity = some avail) :
    (avail ≤ 0 → consume_chemicals s env = some (s, env)) ∧
    (0 < avail → ∀ y, ENERGY_YIELD s.chemical_affinity = some y →
      ∃ s' env', consume_chemicals s env = some (s', env') ∧
        s'.energy = s.energy + min avail (s.population : ℚ) * y * s.energy_efficiency ∧
        s'.population = s.population ∧
        lookupA env' s.chemical_affinity = some (avail - min avail (s.population : ℚ)) ∧
        0 ≤ avail - min avail (s.population : ℚ)) := by
  constructor
  · intro h
    exact consume_chemicals_nonpos_eq henv h
  · intro hpos y hy
    exact ⟨_, _, consume_chemicals_pos_eq henv hpos hy, rfl, rfl,
      lookupA_updateA_self _ henv, sub_nonneg.mpr (min_le_left _ _)⟩

/-- Witness for C1: the spec's end-to-end scenario (hydrogen at 1000,
population 100). -/
theorem claim_C1_witness :
    0 ≤ speciesH.population ∧
    lookupA INITIAL_CHEMICALS speciesH.chemical_affinity = some 1000 ∧
    (((1000 : ℚ) ≤ 0 →
        consume_chemicals speciesH INITIAL_CHEMICALS = some (speciesH, INITIAL_CHEMICALS)) ∧
     (0 < (1000 : ℚ) → ∀ y, ENERGY_YIELD speciesH.chemical_affinity = some y →
        ∃ s' env', consume_chemicals speciesH INITIAL_CHEMICALS = some (s', env') ∧
          s'.energy = speciesH.energy +
            min 1000 (speciesH.population : ℚ) * y * speciesH.energy_efficiency ∧
          s'.population = speciesH.population ∧
          lookupA env' speciesH.chemical_affinity =
            some (1000 - min 1000 (speciesH.population : ℚ)) ∧
          0 ≤ 1000 - min 1000 (speciesH.population : ℚ))) :=
  ⟨by norm_num [speciesH], by simp [speciesH, INITIAL_CHEMICALS, lookupA],
   claim_C1_consume_chemicals speciesH INITIAL_CHEMICALS 1000
     (by norm_num [speciesH]) (by simp [speciesH, INITIAL_CHEMICALS, lookupA])⟩

/-- Claim C2: reproduce is a no-op when energy < 2 * population, and when
energy ≥ 2 * population it adds exactly ⌊population * reproduction_rate⌋
to the population and subtracts exactly 2 * (pre-call population) from the
energy (the reproduction_rate is nonnegative, per the spec's data model). -/
theorem claim_C2_reproduce (s : Species) (hpop : 0 ≤ s.population)
    (hrate : 0 ≤ s.reproduction_rate) :
    (s.energy < 2 * (s.population : ℚ) → reproduce s = s) ∧
    (2 * (s.population : ℚ) ≤ s.energy →
      (reproduce s).population =
        s.population + ⌊(s.population : ℚ) * s.reproduction_rate⌋ ∧
      (reproduce s).energy = s.energy - 2 * (s.population : ℚ)) := by
  constructor
  · intro h
    have hc : ¬ ((s.population : ℚ) * 2 ≤ s.energy) := by push_neg; linarith
    simp [reproduce, hc]
  · intro h
    have hc : (s.population : ℚ) * 2 ≤ s.energy := by linarith
    have hfl : pyInt ((s.population : ℚ) * s.reproduction_rate) =
        ⌊(s.population : ℚ) * s.reproduction_rate⌋ :=
      pyInt_eq_floor (mul_nonneg (by exact_mod_cast hpop) hrate)
    refine ⟨?_, ?_⟩
    · simp [reproduce, hc, hfl]
    · simp only [reproduce, if_pos hc]
      ring

/-- Witness for C2: the spec's scenario population 100, energy 200,
reproduction_rate 1/20 (equality triggers reproduction). -/
theorem claim_C2_witness :
    0 ≤ speciesR.population ∧ 0 ≤ speciesR.reproduction_rate ∧
    ((speciesR.energy < 2 * (speciesR.population : ℚ) → reproduce speciesR = speciesR) ∧
     (2 * (speciesR.population : ℚ) ≤ speciesR.energy →
       (reproduce speciesR).population =
         speciesR.population + ⌊(speciesR.population : ℚ) * speciesR.reproduction_rate⌋ ∧
       (reproduce speciesR).energy = speciesR.energy - 2 * (speciesR.population : ℚ))) :=
  ⟨by norm_num [speciesR, speciesH], by norm_num [speciesR, speciesH],
   claim_C2_reproduce speciesR (by norm_num [speciesR, speciesH])
     (by norm_num [speciesR, speciesH])⟩

/-- Claim C3: with prey population ≥ 0 (and the predator's predation_rate
nonnegative, per the spec's data model): if the prey population is positive,
with prey_loss = ⌊prey.population * predator.predation_rate⌋ the predator's
population grows by exactly prey_loss / 2 rounded down, the prey's
population shrinks by exactly prey_loss, and neither energy changes; if the
prey population is 0, predation changes nothing. -/
theorem claim_C3_predation (predator prey : Species)
    (hpop : 0 ≤ prey.population) (hrate : 0 ≤ predator.predation_rate) :
    (0 < prey.population →
      (predation predator prey).1.population =
        predator.population + ⌊(prey.population : ℚ) * predator.predation_rate⌋ / 2 ∧
      (predation predator prey).2.population =
        prey.population - ⌊(prey.population : ℚ) * predator.predation_rate⌋ ∧
      (predation predator prey).1.energy = predator.energy ∧
      (predation predator prey).2.energy = prey.energy) ∧
    (prey.population = 0 → predation predator prey = (predator, prey)) := by
  constructor
  · intro h
    have hfl : pyInt ((prey.population : ℚ) * predator.predation_rate) =
        ⌊(prey.population : ℚ) * predator.predation_rate⌋ :=
      pyInt_eq_floor (mul_nonneg (by exact_mod_cast hpop) hrate)
    refine ⟨?_, ?_, ?_, ?_⟩ <;> simp [predation, h, hfl]
  · intro h
    simp [predation, h]

/-- Witness for C3: the spec's scenario predation_rate 1/50, prey
population 200. -/
theorem claim_C3_witness :
    0 ≤ preyS.population ∧ 0 ≤ speciesH.predation_rate ∧
    ((0 < preyS.population →
       (predation speciesH preyS).1.population =
         speciesH.population + ⌊(preyS.population : ℚ) * speciesH.predation_rate⌋ / 2 ∧
       (predation speciesH preyS).2.population =
         preyS.population - ⌊(preyS.population : ℚ) * speciesH.predation_rate⌋ ∧
       (predation speciesH preyS).1.energy = speciesH.energy ∧
       (predation speciesH preyS).2.energy = preyS.energy) ∧
     (preyS.population = 0 → predation speciesH preyS = (speciesH, preyS))) :=
  ⟨by norm_num [preyS, speciesH], by norm_num [speciesH],
   claim_C3_predation speciesH preyS (by norm_num [preyS, speciesH])
     (by norm_num [speciesH])⟩

/-! ### Claim C4: population and energy stay nonnegative after each call -/

/-- Claim C4: for a species with population ≥ 0, energy ≥ 0,
predation_rate in [0,1], reproduction_rate > 0 and energy_efficiency > 0,
whose symbiosis partner (if any) has population ≥ 0, each single behavior
call — consume_chemicals, symbiotic_interaction, reproduce, evolve, or
predation in either role — leaves its population and energy ≥ 0; in
particular predation never drives the prey's population below 0. -/
theorem claim_C4_nonneg_after_each_call (s : Species)
    (hpop : 0 ≤ s.population) (hen : 0 ≤ s.energy)
    (hpr0 : 0 ≤ s.predation_rate) (hpr1 : s.predation_rate ≤ 1)
    (hrr : 0 < s.reproduction_rate) (hee : 0 < s.energy_efficiency) :
    (∀ env s' env', consume_chemicals s env = some (s', env') →
       0 ≤ s'.population ∧ 0 ≤ s'.energy) ∧
    (∀ sl : List Species,
       (∀ i, s.symbiosis = some i → ∀ partner, sl[i]? = some partner →
          0 ≤ partner.population) →
       0 ≤ (symbiotic_interaction s sl).population ∧
       0 ≤ (symbiotic_interaction s sl).energy) ∧
    (0 ≤ (reproduce s).population ∧ 0 ≤ (reproduce s).energy) ∧
    (∀ c t f, 0 ≤ (evolve s c t f).population ∧ 0 ≤ (evolve s c t f).energy) ∧
    (∀ prey : Species, 0 ≤ prey.population →
       0 ≤ (predation s prey).1.population ∧ 0 ≤ (predation s prey).1.energy) ∧
    (∀ pred : Species, 0 ≤ pred.predation_rate → pred.predation_rate ≤ 1 →
       0 ≤ (predation pred s).2.population ∧ 0 ≤ (predation pred s).2.energy) := by
  refine ⟨?_, ?_, ?_, ?_, ?_, ?_⟩
  · intro env s' env' h
    rcases consume_chemicals_inv h with ⟨rfl, -⟩ | ⟨avail, y, -, hpos, hy, rfl, -⟩
    · exact ⟨hpop, hen⟩
    · refine ⟨hpop, ?_⟩
      have h1 : 0 ≤ min avail (s.population : ℚ) :=
        le_min hpos.le (by exact_mod_cast hpop)
      exact add_nonneg hen
        (mul_nonneg (mul_nonneg h1 (ENERGY_YIELD_pos hy).le) hee.le)
  · intro sl hpartner
    cases hsym : s.symbiosis with
    | none => simp only [symbiotic_interaction, hsym]; exact ⟨hpop, hen⟩
    | some i =>
      cases hp : sl[i]? with
      | none => simp only [symbiotic_interaction, hsym, hp]; exact ⟨hpop, hen⟩
      | some partner =>
        have h0 : 0 ≤ partner.population := hpartner i hsym partner hp
        have h1 : (0 : ℤ) ≤ pyInt ((partner.population : ℚ) * (1 / 10)) :=
          pyInt_nonneg (mul_nonneg (by exact_mod_cast h0) (by norm_num))
        simp only [symbiotic_interaction, hsym, hp]
        exact ⟨hpop, add_nonneg hen (by exact_mod_cast h1)⟩
  · by_cases hc : (s.population : ℚ) * 2 ≤ s.energy
    · simp only [reproduce, if_pos hc]
      constructor
      · exact add_nonneg hpop
          (pyInt_nonneg (mul_nonneg (by exact_mod_cast hpop) hrr.le))
      · exact sub_nonneg.mpr hc
    · simp only [reproduce, if_neg hc]
      exact ⟨hpop, hen⟩
  · intro c t f
    unfold evolve
    split_ifs
    · cases t <;> exact ⟨hpop, hen⟩
    · exact ⟨hpop, hen⟩
  · intro prey hpp
    by_cases h : 0 < prey.population
    · simp only [predation, if_pos h]
      refine ⟨add_nonneg hpop (Int.ediv_nonneg ?_ (by norm_num)), hen⟩
      exact pyInt_nonneg (mul_nonneg (by exact_mod_cast hpp) hpr0)
    · simp only [predation, if_neg h]
      exact ⟨hpop, hen⟩
  · intro pred h0 h1
    by_cases h : 0 < s.population
    · simp only [predation, if_pos h]
      refine ⟨?_, hen⟩
      have hq : (pyInt ((s.population : ℚ) * pred.predation_rate) : ℚ) ≤
          (s.population : ℚ) := by
        refine le_trans (pyInt_cast_le (mul_nonneg (by exact_mod_cast hpop) h0)) ?_
        exact mul_le_of_le_one_right (by exact_mod_cast hpop) h1
      have hz : pyInt ((s.population : ℚ) * pred.predation_rate) ≤ s.population := by
        exact_mod_cast hq
      exact sub_nonneg.mpr hz
    · simp only [predation, if_neg h]
      exact ⟨hpop, hen⟩

/-- Witness for C4 at the example species (population 100, energy 0,
predation_rate 1/50, reproduction_rate 1/20, energy_efficiency 4/5). -/
theorem claim_C4_witness :
    (0 ≤ speciesH.population ∧ 0 ≤ speciesH.energy ∧
     0 ≤ speciesH.predation_rate ∧ speciesH.predation_rate ≤ 1 ∧
     0 < speciesH.reproduction_rate ∧ 0 < speciesH.energy_efficiency) ∧
    ((∀ env s' env', consume_chemicals speciesH env = some (s', env') →
        0 ≤ s'.population ∧ 0 ≤ s'.energy) ∧
     (∀ sl : List Species,
        (∀ i, speciesH.symbiosis = some i → ∀ partner, sl[i]? = some partner →
           0 ≤ partner.population) →
        0 ≤ (symbiotic_interaction speciesH sl).population ∧
        0 ≤ (symbiotic_interaction speciesH sl).energy) ∧
     (0 ≤ (reproduce speciesH).population ∧ 0 ≤ (reproduce speciesH).energy) ∧
     (∀ c t f, 0 ≤ (evolve speciesH c t f).population ∧
        0 ≤ (evolve speciesH c t f).energy) ∧
     (∀ prey : Species, 0 ≤ prey.population →
        0 ≤ (predation speciesH prey).1.population ∧
        0 ≤ (predation speciesH prey).1.energy) ∧
     (∀ pred : Species, 0 ≤ pred.predation_rate → pred.predation_rate ≤ 1 →
        0 ≤ (predation pred speciesH).2.population ∧
        0 ≤ (predation pred speciesH).2.energy)) :=
  ⟨⟨by norm_num [speciesH], by norm_num [speciesH], by norm_num [speciesH],
    by norm_num [speciesH], by norm_num [speciesH], by norm_num [speciesH]⟩,
   claim_C4_nonneg_after_each_call speciesH (by norm_num [speciesH])
     (by norm_num [speciesH]) (by norm_num [speciesH]) (by norm_num [speciesH])
     (by norm_num [speciesH]) (by norm_num [speciesH])⟩

/-! ### Replenishment facts and Claim C8 -/

theorem replenishAux_map_fst (amts : Nat → ℤ) (env : EnvMap) :
    ∀ i : Nat, (replenishAux amts i env).map Prod.fst = env.map Prod.fst := by
  induction env with
  | nil => intro i; rfl
  | cons p rest ih => intro i; simp [replenishAux, ih (i + 1)]

theorem replenishAux_getElem? (amts : Nat → ℤ) (env : EnvMap) :
    ∀ i j : Nat, (replenishAux amts i env)[j]? =
      env[j]?.map (fun p => (p.1, p.2 + (amts (i + j) : ℚ))) := by
  induction env with
  | nil => intro i j; simp [replenishAux]
  | cons p rest ih =>
    intro i j
    cases j with
    | zero => simp [replenishAux]
    | succ j' =>
      simp only [replenishAux, List.getElem?_cons_succ]
      rw [ih (i + 1) j']
      have hidx : i + 1 + j' = i + (j' + 1) := by omega
      rw [hidx]

theorem replenish_chemicals_getElem? (chems : EnvMap) (amts : Nat → ℤ) (j : Nat) :
    (replenish_chemicals chems amts)[j]? =
      chems[j]?.map (fun p => (p.1, p.2 + (amts j : ℚ))) := by
  have := replenishAux_getElem? amts chems 0 j
  simpa [replenish_chemicals] using this

theorem replenishAux_snd_nonneg {amts : Nat → ℤ} (hamts : ∀ i, 0 ≤ amts i)
    (env : EnvMap) :
    ∀ i : Nat, (∀ p ∈ env, 0 ≤ p.2) → ∀ p ∈ replenishAux amts i env, 0 ≤ p.2 := by
  induction env with
  | nil => intro i _ p hp; simp [replenishAux] at hp
  | cons q rest ih =>
    intro i henv p hp
    simp only [replenishAux, List.mem_cons] at hp
    rcases hp with rfl | hp
    · exact add_nonneg (henv q (List.mem_cons_self _ _))
        (by exact_mod_cast hamts i)
    · exact ih (i + 1) (fun r hr => henv r (List.mem_cons_of_mem _ hr)) p hp

/-- Claim C8: for every environment mapping and every outcome of the random
draws (each drawn amount lying in [10,50], as random.randint(10,50)
guarantees), replenish_chemicals adds to every chemical kind an integer
amount that is ≥ 10 and ≤ 50, and introduces no new keys. -/
theorem claim_C8_replenish_chemicals (chems : EnvMap) (amts : Nat → ℤ)
    (h : ∀ i, 10 ≤ amts i ∧ amts i ≤ 50) :
    (replenish_chemicals chems amts).map Prod.fst = chems.map Prod.fst ∧
    ∀ j p, chems[j]? = some p →
      (replenish_chemicals chems amts)[j]? = some (p.1, p.2 + (amts j : ℚ)) ∧
      10 ≤ amts j ∧ amts j ≤ 50 := by
  refine ⟨replenishAux_map_fst amts chems 0, ?_⟩
  intro j p hp
  refine ⟨?_, (h j).1, (h j).2⟩
  rw [replenish_chemicals_getElem?, hp]
  rfl

/-- Witness for C8 on the initial chemical table with constant draws of 10. -/
theorem claim_C8_witness :
    (∀ i, 10 ≤ cRAmt 0 i ∧ cRAmt 0 i ≤ 50) ∧
    ((replenish_chemicals INITIAL_CHEMICALS (cRAmt 0)).map Prod.fst =
        INITIAL_CHEMICALS.map Prod.fst ∧
     ∀ j p, INITIAL_CHEMICALS[j]? = some p →
       (replenish_chemicals INITIAL_CHEMICALS (cRAmt 0))[j]? =
         some (p.1, p.2 + (cRAmt 0 j : ℚ)) ∧
       10 ≤ cRAmt 0 j ∧ cRAmt 0 j ≤ 50) :=
  ⟨fun i => ⟨by norm_num [cRAmt], by norm_num [cRAmt]⟩,
   claim_C8_replenish_chemicals INITIAL_CHEMICALS (cRAmt 0)
     (fun i => ⟨by norm_num [cRAmt], by norm_num [cRAmt]⟩)⟩

/-! ### Field preservation of the per-species behaviors -/

theorem consume_chemicals_total {s : Species} {env : EnvMap}
    (hmem : s.chemical_affinity ∈ env.map Prod.fst)
    (hy : (ENERGY_YIELD s.chemical_affinity).isSome = true) :
    ∃ s1 env1, consume_chemicals s env = some (s1, env1) ∧
      s1.name = s.name ∧ s1.chemical_affinity = s.chemical_affinity ∧
      env1.map Prod.fst = env.map Prod.fst := by
  obtain ⟨avail, hl⟩ := lookupA_isSome_of_mem_fst hmem
  obtain ⟨y, hyy⟩ := Option.isSome_iff_exists.mp hy
  by_cases hpos : 0 < avail
  · exact ⟨_, _, consume_chemicals_pos_eq hl hpos hyy, rfl, rfl,
      updateA_map_fst env _ _⟩
  · exact ⟨s, env, consume_chemicals_nonpos_eq hl (not_lt.mp hpos), rfl, rfl, rfl⟩

theorem symbiotic_interaction_fields (s : Species) (sl : List Species) :
    (symbiotic_interaction s sl).name = s.name ∧
    (symbiotic_interaction s sl).chemical_affinity = s.chemical_affinity ∧
    (symbiotic_interaction s sl).population = s.population := by
  cases hsym : s.symbiosis with
  | none => simp [symbiotic_interaction, hsym]
  | some i =>
    cases hp : sl[i]? with
    | none => simp [symbiotic_interaction, hsym, hp]
    | some partner => simp [symbiotic_interaction, hsym, hp]

theorem reproduce_fields (s : Species) :
    (reproduce s).name = s.name ∧
    (reproduce s).chemical_affinity = s.chemical_affinity := by
  by_cases hc : (s.population : ℚ) * 2 ≤ s.energy
  · simp [reproduce, hc]
  · simp [reproduce, hc]

/-! ### The per-generation species pass: totality and history bookkeeping -/

theorem speciesPhaseAux_spec (k : Nat) :
    ∀ (j : Nat) (sl : List Species) (env : EnvMap) (hist : PopHist),
      j + k = sl.length →
      (∀ t ∈ sl, t.chemical_affinity ∈ env.map Prod.fst ∧
        (ENERGY_YIELD t.chemical_affinity).isSome = true) →
      ∃ sl' env' hist',
        speciesPhaseAux k j sl env hist = some (sl', env', hist') ∧
        sl'.map Species.name = sl.map Species.name ∧
        sl'.map Species.chemical_affinity = sl.map Species.chemical_affinity ∧
        env'.map Prod.fst = env.map Prod.fst ∧
        hist'.map Prod.fst = hist.map Prod.fst ∧
        (∀ i, i < j → sl'[i]? = sl[i]?) ∧
        (∀ n l, lookupA hist n = some l → ∃ l', lookupA hist' n = some l' ∧
          l'.length = l.length + ((sl.map Species.name).drop j).count n) ∧
        (∀ n, ((sl.map Species.name).drop j).count n = 0 →
          lookupA hist' n = lookupA hist n) ∧
        ((sl.map Species.name).Nodup →
          ∀ i s_i, j ≤ i → sl'[i]? = some s_i →
            lookupA hist' s_i.name =
              (lookupA hist s_i.name).map (fun l => l ++ [s_i.population])) := by
  induction k with
  | zero =>
    intro j sl env hist hlen _hWF
    have hdrop : (sl.map Species.name).drop j = [] :=
      List.drop_eq_nil_of_le (by simp only [List.length_map]; omega)
    refine ⟨sl, env, hist, rfl, rfl, rfl, rfl, rfl, fun i _ => rfl, ?_, ?_, ?_⟩
    · intro n l hl
      exact ⟨l, hl, by simp [hdrop]⟩
    · intro n _
      rfl
    · intro _ i s_i hji hsome
      obtain ⟨hlt, -⟩ := List.getElem?_eq_some_iff.mp hsome
      exact absurd hlt (by omega)
  | succ k ih =>
    intro j sl env hist hlen hWF
    have hjlt : j < sl.length := by omega
    obtain ⟨s, hjq⟩ : ∃ t, sl[j]? = some t := ⟨sl[j], List.getElem?_eq_getElem hjlt⟩
    have hsmem : s ∈ sl := List.getElem?_mem hjq
    obtain ⟨hmem, hyi⟩ := hWF s hsmem
    obtain ⟨s1, env1, hcons, hn1, ha1, hk1⟩ := consume_chemicals_total hmem hyi
    obtain ⟨s3, hs3⟩ : ∃ t, t = reproduce (symbiotic_interaction s1 (sl.set j s1)) :=
      ⟨_, rfl⟩
    have hname3 : s3.name = s.name := by
      rw [hs3, (reproduce_fields _).1, (symbiotic_interaction_fields _ _).1, hn1]
    have haff3 : s3.chemical_affinity = s.chemical_affinity := by
      rw [hs3, (reproduce_fields _).2, (symbiotic_interaction_fields _ _).2.1, ha1]
    have hstep : speciesPhaseAux (k + 1) j sl env hist =
        speciesPhaseAux k (j + 1) (sl.set j s3) env1
          (appendPop hist s3.name s3.population) := by
      simp only [speciesPhaseAux, hjq, hcons, List.set_set, ← hs3]
    have hnamemap : (sl.set j s3).map Species.name = sl.map Species.name := by
      refine map_set_eq _ _ _ _ ?_
      intro b hb
      rw [hjq] at hb
      obtain rfl := Option.some.inj hb
      exact hname3
    have haffmap : (sl.set j s3).map Species.chemical_affinity =
        sl.map Species.chemical_affinity := by
      refine map_set_eq _ _ _ _ ?_
      intro b hb
      rw [hjq] at hb
      obtain rfl := Option.some.inj hb
      exact haff3
    have hlen3 : (j + 1) + k = (sl.set j s3).length := by
      simp only [List.length_set]
      omega
    have hWF3 : ∀ t ∈ sl.set j s3, t.chemical_affinity ∈ env1.map Prod.fst ∧
        (ENERGY_YIELD t.chemical_affinity).isSome = true := by
      intro t ht
      rw [hk1]
      rcases List.mem_or_eq_of_mem_set ht with htm | rfl
      · exact hWF t htm
      · rw [haff3]
        exact ⟨hmem, hyi⟩
    obtain ⟨sl', env', hist', hrun, hnames, haffs, hkeys, hhkeys, hframe, hlens,
      huntouched, hG⟩ :=
      ih (j + 1) (sl.set j s3) env1 (appendPop hist s3.name s3.population) hlen3 hWF3
    have hdropj : (sl.map Species.name).drop j =
        s.name :: (sl.map Species.name).drop (j + 1) := by
      have hjm : j < (sl.map Species.name).length := by
        simp only [List.length_map]
        exact hjlt
      rw [List.drop_eq_getElem_cons hjm]
      congr 1
      have hq : (sl.map Species.name)[j]? = some s.name := by
        rw [List.getElem?_map, hjq]
        rfl
      have h2 := List.getElem?_eq_getElem hjm
      rw [hq] at h2
      exact (Option.some.inj h2).symm
    refine ⟨sl', env', hist', by rw [hstep]; exact hrun, by rw [hnames, hnamemap],
      by rw [haffs, haffmap], by rw [hkeys, hk1],
      by rw [hhkeys, appendPop_map_fst], ?_, ?_, ?_, ?_⟩
    · intro i hij
      rw [hframe i (by omega)]
      exact List.getElem?_set_ne (by omega)
    · intro n l hl
      have hl1 : lookupA (appendPop hist s3.name s3.population) n =
          some (if n = s3.name then l ++ [s3.population] else l) := by
        rw [lookupA_appendPop, hl]
        rfl
      obtain ⟨l', hl', hlenl⟩ := hlens n _ hl1
      refine ⟨l', hl', ?_⟩
      rw [hnamemap] at hlenl
      rw [hdropj]
      simp only [List.count_cons, beq_iff_eq]
      by_cases hns : n = s.name
      · rw [if_pos (show n = s3.name by rw [hname3]; exact hns)] at hlenl
        simp only [List.length_append, List.length_cons, List.length_nil] at hlenl
        rw [if_pos hns.symm]
        omega
      · rw [if_neg (show ¬ n = s3.name by rw [hname3]; exact hns)] at hlenl
        rw [if_neg (fun h => hns h.symm)]
        omega
    · intro n hcnt
      rw [hdropj] at hcnt
      simp only [List.count_cons, beq_iff_eq] at hcnt
      by_cases hns : n = s.name
      · rw [if_pos hns.symm] at hcnt
        exact absurd hcnt (by omega)
      · rw [if_neg (fun h => hns h.symm)] at hcnt
        have hrest : ((sl.map Species.name).drop (j + 1)).count n = 0 := by omega
        have h2 : lookupA hist' n =
            lookupA (appendPop hist s3.name s3.population) n := by
          apply huntouched
          rw [hnamemap]
          exact hrest
        rw [h2, lookupA_appendPop]
        have hne3 : ¬ n = s3.name := by
          rw [hname3]
          exact hns
        cases lookupA hist n <;> simp [hne3]
    · intro hnd i s_i hji hsome
      have hnd3 : ((sl.set j s3).map Species.name).Nodup := by
        rw [hnamemap]
        exact hnd
      by_cases hij : j + 1 ≤ i
      · have hGi := hG hnd3 i s_i hij hsome
        have hni : (sl.map Species.name)[i]? = some s_i.name := by
          rw [← hnamemap, ← hnames, List.getElem?_map, hsome]
          rfl
        have hnj : (sl.map Species.name)[j]? = some s.name := by
          rw [List.getElem?_map, hjq]
          rfl
        have hiL : i < (sl.map Species.name).length :=
          (List.getElem?_eq_some_iff.mp hni).1
        have hne : s_i.name ≠ s.name := by
          intro heq
          have hcontra := List.nodup_iff_getElem?_ne_getElem?.mp hnd j i (by omega) hiL
          rw [hni, hnj] at hcontra
          exact hcontra (by rw [heq])
        rw [hGi]
        have h1 : lookupA (appendPop hist s3.name s3.population) s_i.name =
            lookupA hist s_i.name := by
          rw [lookupA_appendPop]
          have hne3 : ¬ s_i.name = s3.name := by
            rw [hname3]
            exact hne
          cases lookupA hist s_i.name <;> simp [hne3]
        rw [h1]
      · have hij' : i = j := by omega
        subst hij'
        have hfr := hframe i (by omega)
        rw [hfr, List.getElem?_set_self hjlt] at hsome
        obtain rfl := Option.some.inj hsome
        have htk : ((sl.map Species.name).take (i + 1))[i]? = some s.name := by
          rw [List.getElem?_take_of_succ, List.getElem?_map, hjq]
          rfl
        have hmemtake := List.getElem?_mem htk
        have hcnt0 : (((sl.set i s3).map Species.name).drop (i + 1)).count s3.name = 0 := by
          rw [hnamemap, hname3]
          have hsplit := List.take_append_drop (i + 1) (sl.map Species.name)
          have hnd2 : ((sl.map Species.name).take (i + 1) ++
              (sl.map Species.name).drop (i + 1)).Nodup := by
            rw [hsplit]
            exact hnd
          have hdisj := (List.nodup_append.mp hnd2).2.2
          exact List.count_eq_zero.mpr (hdisj hmemtake)
        have h2 : lookupA hist' s3.name =
            lookupA (appendPop hist s3.name s3.population) s3.name :=
          huntouched _ hcnt0
        rw [h2, lookupA_appendPop]
        cases lookupA hist s3.name <;> simp

/-! ### The predation, evolve and replenish passes preserve the bookkeeping -/

theorem predation_fields (a b : Species) :
    ((predation a b).1.name = a.name ∧
     (predation a b).1.chemical_affinity = a.chemical_affinity) ∧
    ((predation a b).2.name = b.name ∧
     (predation a b).2.chemical_affinity = b.chemical_affinity) := by
  by_cases h : 0 < b.population <;> simp [predation, h]

theorem predAux_map {β : Type} (f : Species → β)
    (hf : ∀ a b, f (predation a b).1 = f a ∧ f (predation a b).2 = f b) :
    ∀ (l : List Species) (cur : Species),
      (predAux cur l).map f = f cur :: l.map f := by
  intro l
  induction l with
  | nil => intro cur; rfl
  | cons b rest ih =>
    intro cur
    simp only [predAux, List.map_cons]
    rw [ih, (hf cur b).1, (hf cur b).2]

theorem predPhase_map {β : Type} (f : Species → β)
    (hf : ∀ a b, f (predation a b).1 = f a ∧ f (predation a b).2 = f b)
    (sl : List Species) : (predPhase sl).map f = sl.map f := by
  cases sl with
  | nil => rfl
  | cons s rest => exact predAux_map f hf rest s

theorem evolve_fields (s : Species) (c : ℚ) (t : Trait) (m : ℚ) :
    (evolve s c t m).name = s.name ∧
    (evolve s c t m).chemical_affinity = s.chemical_affinity ∧
    (evolve s c t m).population = s.population ∧
    (evolve s c t m).energy = s.energy := by
  by_cases h : c < 1 / 10
  · cases t <;> simp only [evolve] <;> rw [if_pos h] <;> exact ⟨rfl, rfl, rfl, rfl⟩
  · cases t <;> simp only [evolve] <;> rw [if_neg h] <;> exact ⟨rfl, rfl, rfl, rfl⟩

theorem evolvePhase_map {β : Type} (f : Species → β)
    (hf : ∀ s c t m, f (evolve s c t m) = f s) (draws : Nat → ℚ × Trait × ℚ) :
    ∀ (l : List Species) (j : Nat), (evolvePhase draws j l).map f = l.map f := by
  intro l
  induction l with
  | nil => intro j; rfl
  | cons s rest ih =>
    intro j
    simp only [evolvePhase, List.map_cons]
    rw [ih, hf]

/-! ### One full generation -/

theorem runGeneration_spec (eD : Nat → ℚ × Trait × ℚ) (rA : Nat → ℤ) (st : SimState)
    (hWF : ∀ t ∈ st.species, t.chemical_affinity ∈ st.env.map Prod.fst ∧
      (ENERGY_YIELD t.chemical_affinity).isSome = true) :
    ∃ st', runGeneration eD rA st = some st' ∧
      st'.species.map Species.name = st.species.map Species.name ∧
      st'.species.map Species.chemical_affinity =
        st.species.map Species.chemical_affinity ∧
      st'.env.map Prod.fst = st.env.map Prod.fst ∧
      st'.pop_hist.map Prod.fst = st.pop_hist.map Prod.fst ∧
      st'.chem_hist = st.chem_hist ++ [sumChemicals st.env] ∧
      (∀ n l, lookupA st.pop_hist n = some l → ∃ l', lookupA st'.pop_hist n = some l' ∧
        l'.length = l.length + (st.species.map Species.name).count n) := by
  obtain ⟨sl1, env1, hist1, hrun, hnames, haffs, hkeys, hhkeys, _hframe, hlens, _, _⟩ :=
    speciesPhaseAux_spec st.species.length 0 st.species st.env st.pop_hist
      (by omega) hWF
  refine ⟨⟨evolvePhase eD 0 (predPhase sl1), replenish_chemicals env1 rA, hist1,
      st.chem_hist ++ [sumChemicals st.env]⟩, ?_, ?_, ?_, ?_, ?_, rfl, ?_⟩
  · simp only [runGeneration, speciesPhase, hrun]
  · show (evolvePhase eD 0 (predPhase sl1)).map Species.name = _
    rw [evolvePhase_map Species.name (fun s c t m => (evolve_fields s c t m).1) eD,
      predPhase_map Species.name
        (fun a b => ⟨(predation_fields a b).1.1, (predation_fields a b).2.1⟩),
      hnames]
  · show (evolvePhase eD 0 (predPhase sl1)).map Species.chemical_affinity = _
    rw [evolvePhase_map Species.chemical_affinity
        (fun s c t m => (evolve_fields s c t m).2.1) eD,
      predPhase_map Species.chemical_affinity
        (fun a b => ⟨(predation_fields a b).1.2, (predation_fields a b).2.2⟩),
      haffs]
  · show (replenish_chemicals env1 rA).map Prod.fst = _
    rw [replenish_chemicals, replenishAux_map_fst, hkeys]
  · exact hhkeys
  · intro n l hl
    obtain ⟨l', hl', hlenl⟩ := hlens n l hl
    exact ⟨l', hl', by simpa using hlenl⟩

/-! ### The chemical quantities stay nonnegative through the loop -/

theorem speciesPhaseAux_env_nonneg (k : Nat) :
    ∀ (j : Nat) (sl : List Species) (env : EnvMap) (hist : PopHist)
      (res : List Species × EnvMap × PopHist),
      speciesPhaseAux k j sl env hist = some res →
      (∀ p ∈ env, 0 ≤ p.2) → ∀ p ∈ res.2.1, 0 ≤ p.2 := by
  induction k with
  | zero =>
    intro j sl env hist res h henv
    simp only [speciesPhaseAux, Option.some.injEq] at h
    rw [← h]
    exact henv
  | succ k ih =>
    intro j sl env hist res h henv
    cases hjq : sl[j]? with
    | none => simp [speciesPhaseAux, hjq] at h
    | some s =>
      cases hcons : consume_chemicals s env with
      | none => simp [speciesPhaseAux, hjq, hcons] at h
      | some pr =>
        obtain ⟨s1, env1⟩ := pr
        simp only [speciesPhaseAux, hjq, hcons] at h
        exact ih _ _ _ _ _ h (consume_chemicals_env_nonneg henv hcons)

theorem runGeneration_env_nonneg {eD : Nat → ℚ × Trait × ℚ} {rA : Nat → ℤ}
    {st st' : SimState} (h : runGeneration eD rA st = some st')
    (henv : ∀ p ∈ st.env, 0 ≤ p.2) (hrA : ∀ i, 10 ≤ rA i) :
    ∀ p ∈ st'.env, 0 ≤ p.2 := by
  cases hsp : speciesPhase st.species st.env st.pop_hist with
  | none => simp [runGeneration, hsp] at h
  | some tri =>
    obtain ⟨sl1, env1, hist1⟩ := tri
    simp only [runGeneration, hsp] at h
    obtain rfl := Option.some.inj h
    have h1 : ∀ p ∈ env1, 0 ≤ p.2 :=
      speciesPhaseAux_env_nonneg _ _ _ _ _ _ hsp henv
    intro p hp
    exact replenishAux_snd_nonneg (fun i => le_trans (by norm_num) (hrA i)) env1 0 h1 p hp

theorem simAux_env_nonneg (eD : Nat → Nat → ℚ × Trait × ℚ) (rA : Nat → Nat → ℤ)
    (g : Nat) :
    ∀ (gen : Nat) (st st' : SimState), simAux eD rA gen g st = some st' →
      (∀ p ∈ st.env, 0 ≤ p.2) → (∀ gn i, 10 ≤ rA gn i) →
      ∀ p ∈ st'.env, 0 ≤ p.2 := by
  induction g with
  | zero =>
    intro gen st st' h henv _
    simp only [simAux, Option.some.injEq] at h
    rw [← h]
    exact henv
  | succ g ih =>
    intro gen st st' h henv hrA
    cases hrun : runGeneration (eD gen) (rA gen) st with
    | none => simp [simAux, hrun] at h
    | some st1 =>
      simp only [simAux, hrun] at h
      exact ih _ _ _ h (runGeneration_env_nonneg hrun henv (hrA gen)) hrA

/-! ### The initial history dictionary -/

theorem lookupA_append_left {α : Type} {l1 : List (String × α)} {n : String} {v : α}
    (h : lookupA l1 n = some v) (l2 : List (String × α)) :
    lookupA (l1 ++ l2) n = some v := by
  induction l1 with
  | nil => simp [lookupA] at h
  | cons p rest ih =>
    by_cases hp : p.1 = n
    · simp only [lookupA, if_pos hp] at h ⊢
      exact h
    · simp only [List.cons_append, lookupA, if_neg hp] at h ⊢
      exact ih h

theorem lookupA_append_right {α : Type} {l1 : List (String × α)} {n : String}
    (h : lookupA l1 n = none) (l2 : List (String × α)) :
    lookupA (l1 ++ l2) n = lookupA l2 n := by
  induction l1 with
  | nil => rfl
  | cons p rest ih =>
    by_cases hp : p.1 = n
    · simp [lookupA, if_pos hp] at h
    · simp only [lookupA, if_neg hp] at h
      simp only [List.cons_append, lookupA, if_neg hp]
      exact ih h

theorem lookupA_eq_none_iff {α : Type} {l : List (String × α)} {n : String} :
    lookupA l n = none ↔ n ∉ l.map Prod.fst := by
  induction l with
  | nil => simp [lookupA]
  | cons p rest ih =>
    by_cases hp : p.1 = n
    · simp [lookupA, hp]
    · simp [lookupA, hp, ih, Ne.symm hp]

theorem lookupA_mem_fst {α : Type} {l : List (String × α)} {n : String} {v : α}
    (h : lookupA l n = some v) : n ∈ l.map Prod.fst := by
  by_contra hmem
  rw [lookupA_eq_none_iff.mpr hmem] at h
  exact absurd h (by simp)

theorem anyKey_eq_true {h : PopHist} {n : String} :
    (h.any (fun p => p.1 = n)) = true ↔ n ∈ h.map Prod.fst := by
  simp [List.any_eq_true, List.mem_map]

theorem initHistory_foldl_some {v : List ℤ} (n : String) :
    ∀ (sl : List Species) (acc : PopHist), lookupA acc n = some v →
      lookupA (List.foldl (fun h s =>
        if h.any (fun p => p.1 = s.name) then h else h ++ [(s.name, [])]) acc sl) n =
        some v := by
  intro sl
  induction sl with
  | nil => intro acc h; exact h
  | cons s rest ih =>
    intro acc h
    simp only [List.foldl_cons]
    by_cases ha : (acc.any (fun p => p.1 = s.name)) = true
    · rw [if_pos ha]
      exact ih acc h
    · rw [if_neg ha]
      exact ih _ (lookupA_append_left h _)

theorem initHistory_foldl_new (n : String) :
    ∀ (sl : List Species) (acc : PopHist), lookupA acc n = none →
      n ∈ sl.map Species.name →
      lookupA (List.foldl (fun h s =>
        if h.any (fun p => p.1 = s.name) then h else h ++ [(s.name, [])]) acc sl) n =
        some [] := by
  intro sl
  induction sl with
  | nil => intro acc _ hmem; simp at hmem
  | cons s rest ih =>
    intro acc hnone hmem
    simp only [List.foldl_cons]
    by_cases hn : n = s.name
    · have ha : ¬ ((acc.any (fun p => p.1 = s.name)) = true) := by
        intro hc
        have hm := anyKey_eq_true.mp hc
        rw [← hn] at hm
        exact absurd hm (lookupA_eq_none_iff.mp hnone)
      rw [if_neg ha]
      apply initHistory_foldl_some n rest
      rw [lookupA_append_right hnone]
      simp [lookupA, hn]
    · have hmem' : n ∈ rest.map Species.name := by
        simp only [List.map_cons, List.mem_cons] at hmem
        rcases hmem with h | h
        · exact absurd h hn
        · exact h
      by_cases ha : (acc.any (fun p => p.1 = s.name)) = true
      · rw [if_pos ha]
        exact ih acc hnone hmem'
      · rw [if_neg ha]
        refine ih _ ?_ hmem'
        rw [lookupA_append_right hnone]
        simp [lookupA, Ne.symm hn]

theorem initHistory_lookup {sl : List Species} {s : Species} (hs : s ∈ sl) :
    lookupA (initHistory sl) s.name = some [] :=
  initHistory_foldl_new s.name sl [] rfl (List.mem_map_of_mem _ hs)

theorem initHistory_foldl_nodup :
    ∀ (sl : List Species) (acc : PopHist), (acc.map Prod.fst).Nodup →
      ((List.foldl (fun h s =>
        if h.any (fun p => p.1 = s.name) then h else h ++ [(s.name, [])]) acc sl).map
          Prod.fst).Nodup := by
  intro sl
  induction sl with
  | nil => intro acc h; exact h
  | cons s rest ih =>
    intro acc h
    simp only [List.foldl_cons]
    by_cases ha : (acc.any (fun p => p.1 = s.name)) = true
    · rw [if_pos ha]
      exact ih acc h
    · rw [if_neg ha]
      apply ih
      rw [List.map_append, List.nodup_append]
      refine ⟨h, by simp, ?_⟩
      intro a hamem hasing
      simp only [List.map_cons, List.map_nil, List.mem_singleton] at hasing
      subst hasing
      exact ha (anyKey_eq_true.mpr hamem)

theorem initHistory_nodup (sl : List Species) :
    ((initHistory sl).map Prod.fst).Nodup :=
  initHistory_foldl_nodup sl [] (by simp)

/-! ### The full simulation loop -/

theorem simAux_spec (eD : Nat → Nat → ℚ × Trait × ℚ) (rA : Nat → Nat → ℤ) (g : Nat) :
    ∀ (gen : Nat) (st : SimState),
      (∀ t ∈ st.species, t.chemical_affinity ∈ st.env.map Prod.fst ∧
        (ENERGY_YIELD t.chemical_affinity).isSome = true) →
      ∃ st', simAux eD rA gen g st = some st' ∧
        st'.species.map Species.name = st.species.map Species.name ∧
        st'.env.map Prod.fst = st.env.map Prod.fst ∧
        st'.pop_hist.map Prod.fst = st.pop_hist.map Prod.fst ∧
        st'.chem_hist.length = st.chem_hist.length + g ∧
        (∀ n l, lookupA st.pop_hist n = some l → ∃ l', lookupA st'.pop_hist n = some l' ∧
          l'.length = l.length + g * ((st.species.map Species.name).count n)) := by
  induction g with
  | zero =>
    intro gen st hWF
    exact ⟨st, rfl, rfl, rfl, rfl, by omega, fun n l hl => ⟨l, hl, by omega⟩⟩
  | succ g ihg =>
    intro gen st hWF
    obtain ⟨st1, hrun, hn1, ha1, hk1, hh1, hch1, hlen1⟩ :=
      runGeneration_spec (eD gen) (rA gen) st hWF
    have hWF1 : ∀ t ∈ st1.species, t.chemical_affinity ∈ st1.env.map Prod.fst ∧
        (ENERGY_YIELD t.chemical_affinity).isSome = true := by
      intro t ht
      have hta : t.chemical_affinity ∈ st1.species.map Species.chemical_affinity :=
        List.mem_map_of_mem _ ht
      rw [ha1] at hta
      obtain ⟨t0, ht0, ht0a⟩ := List.mem_map.mp hta
      obtain ⟨hm0, hy0⟩ := hWF t0 ht0
      rw [← ht0a, hk1]
      exact ⟨hm0, hy0⟩
    obtain ⟨st', hrest, hn', hk', hh', hch', hlen'⟩ := ihg (gen + 1) st1 hWF1
    refine ⟨st', ?_, ?_, ?_, ?_, ?_, ?_⟩
    · simp only [simAux, hrun]
      exact hrest
    · rw [hn', hn1]
    · rw [hk', hk1]
    · rw [hh', hh1]
    · rw [hch', hch1]
      simp only [List.length_append, List.length_cons, List.length_nil]
      omega
    · intro n l hl
      obtain ⟨l1, hl1, hlen1'⟩ := hlen1 n l hl
      obtain ⟨l', hl', hlen''⟩ := hlen' n l1 hl1
      refine ⟨l', hl', ?_⟩
      rw [hn1] at hlen''
      rw [hlen'', hlen1']
      ring

/-! ### Claims C5 and C10: history lengths -/

/-- Claim C5 (amended): provided all species names are distinct and every
species' chemical affinity is a key of both the environment mapping and
ENERGY_YIELD, simulate_ecosystem returns a chemical history of length
exactly G and, for every species, a recorded sequence of length exactly G
(so G = 0 gives empty sequences and an empty species list runs without
error). -/
theorem claim_C5_amended_history_lengths (species_list : List Species)
    (environment : EnvMap) (G : Nat) (eD : Nat → Nat → ℚ × Trait × ℚ)
    (rA : Nat → Nat → ℤ)
    (hWF : ∀ t ∈ species_list, t.chemical_affinity ∈ environment.map Prod.fst ∧
      (ENERGY_YIELD t.chemical_affinity).isSome = true)
    (hnd : (species_list.map Species.name).Nodup) :
    ∃ ph ch, simulate_ecosystem species_list environment G eD rA = some (ph, ch) ∧
      ch.length = G ∧
      ∀ s ∈ species_list, ∃ l, lookupA ph s.name = some l ∧ l.length = G := by
  obtain ⟨st', hrun, hn', hk', hh', hch', hlen'⟩ :=
    simAux_spec eD rA G 0 ⟨species_list, environment, initHistory species_list, []⟩ hWF
  refine ⟨st'.pop_hist, st'.chem_hist, ?_, ?_, ?_⟩
  · simp only [simulate_ecosystem, hrun]
  · simpa using hch'
  · intro s hs
    obtain ⟨l, hl, hlen⟩ := hlen' s.name [] (initHistory_lookup hs)
    refine ⟨l, hl, ?_⟩
    have hcnt : (species_list.map Species.name).count s.name = 1 :=
      List.count_eq_one_of_mem hnd (List.mem_map_of_mem _ hs)
    rw [hcnt] at hlen
    simpa using hlen

/-- Counterexample to C5 as stated: two species named "Chemosynth A" and a
single generation give that name a recorded sequence of length 2, not 1. -/
theorem claim_C5_counterexample :
    simulate_ecosystem [dupA, dupB] [("hydrogen", 0)] 1 cEDraw cRAmt =
      some ([("Chemosynth A", [100, 50])], [0]) ∧
    lookupA [("Chemosynth A", ([100, 50] : List ℤ))] dupA.name = some [100, 50] ∧
    ([100, 50] : List ℤ).length ≠ 1 := by
  refine ⟨?_, ?_, by decide⟩
  · norm_num [simulate_ecosystem, simAux, runGeneration, speciesPhase, speciesPhaseAux,
      consume_chemicals, lookupA, updateA, symbiotic_interaction, reproduce, predPhase,
      predAux, predation, evolvePhase, evolve, replenish_chemicals, replenishAux,
      appendPop, initHistory, sumChemicals, pyInt, dupA, dupB, speciesH, cEDraw, cRAmt]
  · simp [lookupA, dupA, speciesH]

/-- Witness for the amended C5 at a single well-formed species, one
generation. -/
theorem claim_C5_witness :
    (∀ t ∈ [speciesH], t.chemical_affinity ∈ INITIAL_CHEMICALS.map Prod.fst ∧
      (ENERGY_YIELD t.chemical_affinity).isSome = true) ∧
    (([speciesH].map Species.name).Nodup) ∧
    (∃ ph ch, simulate_ecosystem [speciesH] INITIAL_CHEMICALS 1 cEDraw cRAmt =
        some (ph, ch) ∧
      ch.length = 1 ∧
      ∀ s ∈ [speciesH], ∃ l, lookupA ph s.name = some l ∧ l.length = 1) :=
  ⟨by
    intro t ht
    rw [List.mem_singleton] at ht
    subst ht
    exact ⟨by simp [speciesH, INITIAL_CHEMICALS], by simp [speciesH, ENERGY_YIELD]⟩,
   by simp,
   claim_C5_amended_history_lengths [speciesH] INITIAL_CHEMICALS 1 cEDraw cRAmt
     (by
       intro t ht
       rw [List.mem_singleton] at ht
       subst ht
       exact ⟨by simp [speciesH, INITIAL_CHEMICALS], by simp [speciesH, ENERGY_YIELD]⟩)
     (by simp)⟩

/-- Claim C10: the population history is keyed by species name: if a name
occurs k ≥ 2 times in the species list (with well-formed affinities), the
returned history has exactly one entry for that name, and its sequence has
length k * G rather than G. -/
theorem claim_C10_duplicate_names (species_list : List Species)
    (environment : EnvMap) (G : Nat) (eD : Nat → Nat → ℚ × Trait × ℚ)
    (rA : Nat → Nat → ℤ) (n : String) (k : Nat)
    (hWF : ∀ t ∈ species_list, t.chemical_affinity ∈ environment.map Prod.fst ∧
      (ENERGY_YIELD t.chemical_affinity).isSome = true)
    (hk : (species_list.map Species.name).count n = k) (hk2 : 2 ≤ k) :
    ∃ ph ch, simulate_ecosystem species_list environment G eD rA = some (ph, ch) ∧
      (ph.map Prod.fst).count n = 1 ∧
      ∃ l, lookupA ph n = some l ∧ l.length = k * G := by
  obtain ⟨st', hrun, hn', hk', hh', hch', hlen'⟩ :=
    simAux_spec eD rA G 0 ⟨species_list, environment, initHistory species_list, []⟩ hWF
  have hmemn : n ∈ species_list.map Species.name := by
    rw [← List.count_pos_iff]
    omega
  obtain ⟨t0, ht0, ht0n⟩ := List.mem_map.mp hmemn
  have hinit : lookupA (initHistory species_list) n = some [] := by
    rw [← ht0n]
    exact initHistory_lookup ht0
  obtain ⟨l, hl, hlen⟩ := hlen' n [] hinit
  refine ⟨st'.pop_hist, st'.chem_hist, by simp only [simulate_ecosystem, hrun],
    ?_, l, hl, ?_⟩
  · have hkeys : st'.pop_hist.map Prod.fst = (initHistory species_list).map Prod.fst := by
      simpa using hh'
    rw [hkeys]
    exact List.count_eq_one_of_mem (initHistory_nodup _) (lookupA_mem_fst hinit)
  · rw [hk] at hlen
    simpa [Nat.mul_comm] using hlen

/-- Witness for C10: two species sharing the name "Chemosynth A", one
generation, recorded sequence of length 2 * 1. -/
theorem claim_C10_witness :
    (∀ t ∈ [dupA, dupB], t.chemical_affinity ∈
        ([("hydrogen", (0 : ℚ))] : EnvMap).map Prod.fst ∧
      (ENERGY_YIELD t.chemical_affinity).isSome = true) ∧
    (([dupA, dupB].map Species.name).count "Chemosynth A" = 2) ∧ 2 ≤ 2 ∧
    (∃ ph ch, simulate_ecosystem [dupA, dupB] [("hydrogen", 0)] 1 cEDraw cRAmt =
        some (ph, ch) ∧
      (ph.map Prod.fst).count "Chemosynth A" = 1 ∧
      ∃ l, lookupA ph "Chemosynth A" = some l ∧ l.length = 2 * 1) :=
  ⟨by
    intro t ht
    simp only [List.mem_cons, List.not_mem_nil, or_false] at ht
    rcases ht with rfl | rfl <;>
      exact ⟨by simp [dupA, dupB, speciesH], by simp [dupA, dupB, speciesH, ENERGY_YIELD]⟩,
   by simp [dupA, dupB, speciesH],
   le_refl 2,
   claim_C10_duplicate_names [dupA, dupB] [("hydrogen", 0)] 1 cEDraw cRAmt
     "Chemosynth A" 2
     (by
       intro t ht
       simp only [List.mem_cons, List.not_mem_nil, or_false] at ht
       rcases ht with rfl | rfl <;>
         exact ⟨by simp [dupA, dupB, speciesH], by simp [dupA, dupB, speciesH, ENERGY_YIELD]⟩)
     (by simp [dupA, dupB, speciesH]) (le_refl 2)⟩

/-! ### Claims C6 and C7: what gets recorded, and when -/

theorem runGeneration_chem {eD : Nat → ℚ × Trait × ℚ} {rA : Nat → ℤ}
    {st st' : SimState} (h : runGeneration eD rA st = some st') :
    st'.chem_hist = st.chem_hist ++ [sumChemicals st.env] := by
  cases hsp : speciesPhase st.species st.env st.pop_hist with
  | none => simp [runGeneration, hsp] at h
  | some tri =>
    obtain ⟨a, b, c⟩ := tri
    simp only [runGeneration, hsp] at h
    obtain rfl := Option.some.inj h
    rfl

theorem simAux_chem_extends (eD : Nat → Nat → ℚ × Trait × ℚ)
    (rA : Nat → Nat → ℤ) (g : Nat) :
    ∀ (gen : Nat) (st st' : SimState), simAux eD rA gen g st = some st' →
      ∃ tl, st'.chem_hist = st.chem_hist ++ tl := by
  induction g with
  | zero =>
    intro gen st st' h
    simp only [simAux, Option.some.injEq] at h
    exact ⟨[], by rw [← h]; simp⟩
  | succ g ih =>
    intro gen st st' h
    cases hrun : runGeneration (eD gen) (rA gen) st with
    | none => simp [simAux, hrun] at h
    | some st1 =>
      simp only [simAux, hrun] at h
      obtain ⟨tl, htl⟩ := ih _ _ _ h
      refine ⟨[sumChemicals st.env] ++ tl, ?_⟩
      rw [htl, runGeneration_chem hrun, List.append_assoc]

/-- Claim C6: in a generation over species with distinct names and
well-formed affinities, the value appended for each species equals that
species' population at the end of the consume/symbiosis/reproduce pass —
i.e. immediately after its own reproduce call — and the generation's final
population history is exactly the history as of the end of that pass, so
the predation applied afterwards in the same generation is not reflected
in this generation's recorded values. -/
theorem claim_C6_record_before_predation (eD : Nat → ℚ × Trait × ℚ)
    (rA : Nat → ℤ) (st : SimState)
    (hWF : ∀ t ∈ st.species, t.chemical_affinity ∈ st.env.map Prod.fst ∧
      (ENERGY_YIELD t.chemical_affinity).isSome = true)
    (hnd : (st.species.map Species.name).Nodup) :
    ∃ (slMid : List Species) (envMid : EnvMap) (histMid : PopHist) (st' : SimState),
      speciesPhase st.species st.env st.pop_hist = some (slMid, envMid, histMid) ∧
      runGeneration eD rA st = some st' ∧
      st'.pop_hist = histMid ∧
      ∀ (i : Nat) (s_i : Species) (l : List ℤ), slMid[i]? = some s_i →
        lookupA st.pop_hist s_i.name = some l →
        lookupA histMid s_i.name = some (l ++ [s_i.population]) := by
  obtain ⟨sl1, env1, hist1, hrun, hnames, haffs, hkeys, hhkeys, hframe, hlens,
    hunt, hG⟩ :=
    speciesPhaseAux_spec st.species.length 0 st.species st.env st.pop_hist
      (by omega) hWF
  refine ⟨sl1, env1, hist1,
    ⟨evolvePhase eD 0 (predPhase sl1), replenish_chemicals env1 rA, hist1,
      st.chem_hist ++ [sumChemicals st.env]⟩, hrun, ?_, rfl, ?_⟩
  · simp only [runGeneration, speciesPhase, hrun]
  · intro i s_i l hsome hl
    have hGi := hG hnd i s_i (by omega) hsome
    rw [hl] at hGi
    simpa using hGi

/-- Witness for C6 at a single well-formed species state. -/
theorem claim_C6_witness :
    (∀ t ∈ (⟨[speciesH], INITIAL_CHEMICALS, initHistory [speciesH], []⟩ :
        SimState).species,
      t.chemical_affinity ∈
        (⟨[speciesH], INITIAL_CHEMICALS, initHistory [speciesH], []⟩ :
          SimState).env.map Prod.fst ∧
      (ENERGY_YIELD t.chemical_affinity).isSome = true) ∧
    (((⟨[speciesH], INITIAL_CHEMICALS, initHistory [speciesH], []⟩ :
        SimState).species.map Species.name).Nodup) ∧
    (∃ (slMid : List Species) (envMid : EnvMap) (histMid : PopHist) (st' : SimState),
      speciesPhase [speciesH] INITIAL_CHEMICALS (initHistory [speciesH]) =
        some (slMid, envMid, histMid) ∧
      runGeneration (cEDraw 0) (cRAmt 0)
        ⟨[speciesH], INITIAL_CHEMICALS, initHistory [speciesH], []⟩ = some st' ∧
      st'.pop_hist = histMid ∧
      ∀ (i : Nat) (s_i : Species) (l : List ℤ), slMid[i]? = some s_i →
        lookupA (initHistory [speciesH]) s_i.name = some l →
        lookupA histMid s_i.name = some (l ++ [s_i.population])) :=
  ⟨by
    intro t ht
    rw [List.mem_singleton] at ht
    subst ht
    exact ⟨by simp [speciesH, INITIAL_CHEMICALS], by simp [speciesH, ENERGY_YIELD]⟩,
   by simp,
   claim_C6_record_before_predation (cEDraw 0) (cRAmt 0)
     ⟨[speciesH], INITIAL_CHEMICALS, initHistory [speciesH], []⟩
     (by
       intro t ht
       rw [List.mem_singleton] at ht
       subst ht
       exact ⟨by simp [speciesH, INITIAL_CHEMICALS], by simp [speciesH, ENERGY_YIELD]⟩)
     (by simp)⟩

/-- Claim C7: every successful generation appends to the chemical history
exactly the sum of the environment's quantities at the start of that
generation (before its consumption and replenishment), and for G ≥ 1 the
first recorded value is the sum of the initial quantities. -/
theorem claim_C7_chemical_snapshot (species_list : List Species)
    (environment : EnvMap) (G : Nat) (eD : Nat → Nat → ℚ × Trait × ℚ)
    (rA : Nat → Nat → ℤ)
    (hWF : ∀ t ∈ species_list, t.chemical_affinity ∈ environment.map Prod.fst ∧
      (ENERGY_YIELD t.chemical_affinity).isSome = true) :
    (∀ (eD1 : Nat → ℚ × Trait × ℚ) (rA1 : Nat → ℤ) (st st' : SimState),
      runGeneration eD1 rA1 st = some st' →
      st'.chem_hist = st.chem_hist ++ [sumChemicals st.env]) ∧
    (1 ≤ G → ∃ ph ch, simulate_ecosystem species_list environment G eD rA =
        some (ph, ch) ∧ ch[0]? = some (sumChemicals environment)) := by
  refine ⟨fun eD1 rA1 st st' h => runGeneration_chem h, ?_⟩
  intro hG
  obtain ⟨g, rfl⟩ : ∃ g, G = g + 1 := ⟨G - 1, by omega⟩
  obtain ⟨st', hrun, -, -, -, -, -⟩ :=
    simAux_spec eD rA (g + 1) 0
      ⟨species_list, environment, initHistory species_list, []⟩ hWF
  refine ⟨st'.pop_hist, st'.chem_hist, by simp only [simulate_ecosystem, hrun], ?_⟩
  cases hr1 : runGeneration (eD 0) (rA 0)
      ⟨species_list, environment, initHistory species_list, []⟩ with
  | none => simp [simAux, hr1] at hrun
  | some st1 =>
    simp only [simAux, hr1] at hrun
    have hch1 : st1.chem_hist = [] ++ [sumChemicals environment] :=
      runGeneration_chem hr1
    obtain ⟨tl, htl⟩ := simAux_chem_extends eD rA g 1 st1 st' hrun
    rw [htl, hch1]
    simp

/-- Witness for C7 at a single well-formed species, one generation. -/
theorem claim_C7_witness :
    (∀ t ∈ [speciesH], t.chemical_affinity ∈ INITIAL_CHEMICALS.map Prod.fst ∧
      (ENERGY_YIELD t.chemical_affinity).isSome = true) ∧ 1 ≤ 1 ∧
    ((∀ (eD1 : Nat → ℚ × Trait × ℚ) (rA1 : Nat → ℤ) (st st' : SimState),
       runGeneration eD1 rA1 st = some st' →
       st'.chem_hist = st.chem_hist ++ [sumChemicals st.env]) ∧
     (1 ≤ 1 → ∃ ph ch, simulate_ecosystem [speciesH] INITIAL_CHEMICALS 1 cEDraw cRAmt =
        some (ph, ch) ∧ ch[0]? = some (sumChemicals INITIAL_CHEMICALS))) :=
  ⟨by
    intro t ht
    rw [List.mem_singleton] at ht
    subst ht
    exact ⟨by simp [speciesH, INITIAL_CHEMICALS], by simp [speciesH, ENERGY_YIELD]⟩,
   le_refl 1,
   claim_C7_chemical_snapshot [speciesH] INITIAL_CHEMICALS 1 cEDraw cRAmt
     (by
       intro t ht
       rw [List.mem_singleton] at ht
       subst ht
       exact ⟨by simp [speciesH, INITIAL_CHEMICALS], by simp [speciesH, ENERGY_YIELD]⟩)⟩

/-! ### Claim C9: chemical quantities never go negative -/

/-- Claim C9: starting from nonnegative chemical quantities (and species
populations ≥ 0), every consume_chemicals call and every
replenish_chemicals call (with its random.randint(10,50) draws) leaves
every quantity ≥ 0, and the non-negativity is preserved across the whole
simulation loop. -/
theorem claim_C9_chemicals_nonneg :
    (∀ (s : Species) (env : EnvMap) (s' : Species) (env' : EnvMap),
      (∀ p ∈ env, 0 ≤ p.2) → 0 ≤ s.population →
      consume_chemicals s env = some (s', env') → ∀ p ∈ env', 0 ≤ p.2) ∧
    (∀ (env : EnvMap) (amts : Nat → ℤ), (∀ p ∈ env, 0 ≤ p.2) →
      (∀ i, 10 ≤ amts i ∧ amts i ≤ 50) →
      ∀ p ∈ replenish_chemicals env amts, 0 ≤ p.2) ∧
    (∀ (eD : Nat → Nat → ℚ × Trait × ℚ) (rA : Nat → Nat → ℤ) (g gen : Nat)
      (st st' : SimState), (∀ p ∈ st.env, 0 ≤ p.2) →
      (∀ t ∈ st.species, 0 ≤ t.population) →
      (∀ gn i, 10 ≤ rA gn i ∧ rA gn i ≤ 50) →
      simAux eD rA gen g st = some st' → ∀ p ∈ st'.env, 0 ≤ p.2) := by
  refine ⟨?_, ?_, ?_⟩
  · intro s env s' env' henv _ h
    exact consume_chemicals_env_nonneg henv h
  · intro env amts henv hamts p hp
    exact replenishAux_snd_nonneg
      (fun i => le_trans (by norm_num) (hamts i).1) env 0 henv p hp
  · intro eD rA g gen st st' henv _ hrA h
    exact simAux_env_nonneg eD rA g gen st st' h henv (fun gn i => (hrA gn i).1)

/-- Witness for C9: a zero-quantity environment, a consume call on it, a
replenishment, and a one-generation run. -/
theorem claim_C9_witness :
    ((∀ p ∈ ([("hydrogen", (0 : ℚ))] : EnvMap), 0 ≤ p.2) ∧
     0 ≤ speciesH.population ∧
     consume_chemicals speciesH [("hydrogen", 0)] = some (speciesH, [("hydrogen", 0)]) ∧
     (∀ t ∈ [speciesH], 0 ≤ t.population) ∧
     (∀ gn i, 10 ≤ cRAmt gn i ∧ cRAmt gn i ≤ 50) ∧
     simAux cEDraw cRAmt 0 1 ⟨[speciesH], [("hydrogen", 0)], initHistory [speciesH], []⟩ =
       some ⟨[speciesH], [("hydrogen", 10)], [("Chemosynth A", [100])], [0]⟩) ∧
    (∀ p ∈ ([("hydrogen", (0 : ℚ))] : EnvMap), 0 ≤ p.2) ∧
    (∀ p ∈ replenish_chemicals [("hydrogen", 0)] (cRAmt 0), 0 ≤ p.2) ∧
    (∀ p ∈ (⟨[speciesH], [("hydrogen", 10)], [("Chemosynth A", [100])], [0]⟩ :
        SimState).env, 0 ≤ p.2) := by
  have h1 : ∀ p ∈ ([("hydrogen", (0 : ℚ))] : EnvMap), 0 ≤ p.2 := by
    intro p hp
    simp only [List.mem_singleton] at hp
    subst hp
    norm_num
  have h2 : 0 ≤ speciesH.population := by norm_num [speciesH]
  have h3 : consume_chemicals speciesH [("hydrogen", 0)] =
      some (speciesH, [("hydrogen", 0)]) := by
    simp [consume_chemicals, lookupA, speciesH]
  have h4 : ∀ t ∈ [speciesH], 0 ≤ t.population := by
    intro t ht
    rw [List.mem_singleton] at ht
    subst ht
    exact h2
  have h5 : ∀ gn i, 10 ≤ cRAmt gn i ∧ cRAmt gn i ≤ 50 := by
    intro gn i
    exact ⟨by norm_num [cRAmt], by norm_num [cRAmt]⟩
  have h6 : simAux cEDraw cRAmt 0 1
      ⟨[speciesH], [("hydrogen", 0)], initHistory [speciesH], []⟩ =
      some ⟨[speciesH], [("hydrogen", 10)], [("Chemosynth A", [100])], [0]⟩ := by
    norm_num [simAux, runGeneration, speciesPhase, speciesPhaseAux,
      consume_chemicals, lookupA, updateA, symbiotic_interaction, reproduce, predPhase,
      predAux, predation, evolvePhase, evolve, replenish_chemicals, replenishAux,
      appendPop, initHistory, sumChemicals, pyInt, speciesH, cEDraw, cRAmt]
  refine ⟨⟨h1, h2, h3, h4, h5, h6⟩, ?_, ?_, ?_⟩
  · exact claim_C9_chemicals_nonneg.1 speciesH [("hydrogen", 0)] speciesH
      [("hydrogen", 0)] h1 h2 h3
  · exact claim_C9_chemicals_nonneg.2.1 [("hydrogen", 0)] (cRAmt 0) h1 (h5 0)
  · exact claim_C9_chemicals_nonneg.2.2 cEDraw cRAmt 1 0
      ⟨[speciesH], [("hydrogen", 0)], initHistory [speciesH], []⟩
      ⟨[speciesH], [("hydrogen", 10)], [("Chemosynth A", [100])], [0]⟩ h1 h4 h5 h6
